import Mathlib

/-!
Verification of the 3D volumetric chess application (React front end plus
Firebase realtime-database multiplayer helpers).

Shallow embedding notes.
The application keeps its state in React `useState` hooks; we model the
relevant hooks as fields of an `AppState` record and each handler as a pure
function `AppState → ... → AppState`.  The board is the nested 8x8x8 array
`boardState[x][y][z]`, modelled as a total function
`Nat → Nat → Nat → Option Piece` (every access made by the handlers is
in bounds, so the array/function distinction is immaterial).  The engine
functions imported from `lib/gameLogic` (`calculateLegalMoves`,
`isKingInCheck`, `isCheckmate`, `isStalemate`) are not part of the
repository snapshot; where a claim depends on them they are modelled from
the specification, parametrised over the primitive predicates.

`executeMove` and `handlePromotion` both begin with
`JSON.parse(JSON.stringify(...))` deep clones of `boardState` and
`capturedPieces` and mutate only the clones.  To make that frame property a
statement rather than a tautology we embed the two handlers through an
`ExecFrame` record that carries both the caller's objects (`input`,
`inputCap`) and the clones (`scratch`, `scratchCap`); each embedded
statement writes the fields the corresponding source statement writes.
-/

inductive Color where
  | white
  | black
deriving DecidableEq, Repr

def oppColor : Color → Color
  | Color.white => Color.black
  | Color.black => Color.white

/-- Piece type tags, the one-letter abbreviations used throughout the app. -/
inductive PieceType where
  | P
  | R
  | N
  | B
  | Q
  | K
deriving DecidableEq, Repr

/-- A piece as stored in a board cell: `{ type, color, x, y, z, hasMoved }`. -/
structure Piece where
  type : PieceType
  color : Color
  x : Nat
  y : Nat
  z : Nat
  hasMoved : Bool
deriving DecidableEq, Repr

/-- `boardState[x][y][z]`, the nested 8x8x8 array of optional pieces. -/
def Board : Type := Nat → Nat → Nat → Option Piece

/-- Writing one cell of the nested array. -/
def setCell (b : Board) (x y z : Nat) (v : Option Piece) : Board :=
  fun a c d => if a = x ∧ c = y ∧ d = z then v else b a c d

/-- The `capturedPieces` state: `{ white: Piece[], black: Piece[] }`. -/
structure CapturedPieces where
  white : List Piece
  black : List Piece
deriving DecidableEq, Repr

/-- Reading the list stored under a color key. -/
def capList (cp : CapturedPieces) : Color → List Piece
  | Color.white => cp.white
  | Color.black => cp.black

/-- `capturedPieces[c].push(p)` — appends `p` to the list keyed by `c`. -/
def pushCaptured (cp : CapturedPieces) (c : Color) (p : Piece) : CapturedPieces :=
  match c with
  | Color.white => { cp with white := cp.white ++ [p] }
  | Color.black => { cp with black := cp.black ++ [p] }

inductive CastleSide where
  | king
  | queen
deriving DecidableEq, Repr

/-- An entry of `validMoves`: destination coordinates plus the castle flag. -/
structure Move where
  x : Nat
  y : Nat
  z : Nat
  castle : Option CastleSide
deriving DecidableEq, Repr

/-- The `promotionData` hook: the moving pawn and the chosen destination. -/
structure PromotionData where
  piece : Piece
  x : Nat
  y : Nat
  z : Nat
deriving DecidableEq, Repr

/-- The React state hooks of the `App` component that the game handlers touch. -/
structure AppState where
  boardState : Board
  turn : Color
  selectedPiece : Option Piece
  validMoves : List Move
  capturedPieces : CapturedPieces
  gameStatus : String
  kingInCheck : Option Color
  promotionData : Option PromotionData
  gameId : Option String
  playerColor : Option Color

/-- `const promotionRank = color === 'white' ? 7 : 0;` -/
def promotionRank : Color → Nat
  | Color.white => 7
  | Color.black => 0

/-- The clone-then-mutate call frame of `executeMove` / `handlePromotion`:
`input`/`inputCap` are the caller's `boardState`/`capturedPieces` objects,
`scratch`/`scratchCap` the `JSON.parse(JSON.stringify(...))` copies. -/
structure ExecFrame where
  input : Board
  inputCap : CapturedPieces
  scratch : Board
  scratchCap : CapturedPieces

/-- The two deep-clone statements opening `executeMove`/`handlePromotion`:
the clones start as independent copies with the same value. -/
def cloneFrame (b : Board) (cp : CapturedPieces) : ExecFrame :=
  { input := b, inputCap := cp, scratch := b, scratchCap := cp }

/-- The body of `executeMove` past the promotion early-return: capture
bookkeeping, relocation of the moved piece, and castling rook relocation,
each statement writing only the scratch copies. -/
def executeMoveCore (b : Board) (cp : CapturedPieces) (piece : Piece)
    (targetX targetY targetZ : Nat) (move : Move) : ExecFrame :=
  let scratch0 := (cloneFrame b cp).scratch
  let scratchCap0 := (cloneFrame b cp).scratchCap
  let targetPiece := scratch0 targetX targetY targetZ
  let scratchCap1 :=
    match targetPiece with
    | some tp => pushCaptured scratchCap0 (oppColor piece.color) tp
    | none => scratchCap0
  let scratch1 := setCell scratch0 piece.x piece.y piece.z none
  let movedPiece : Piece :=
    { piece with x := targetX, y := targetY, z := targetZ, hasMoved := true }
  let scratch2 := setCell scratch1 targetX targetY targetZ (some movedPiece)
  let scratch3 :=
    match move.castle with
    | some CastleSide.king =>
        match scratch2 7 targetY targetZ with
        | some rook =>
            setCell (setCell scratch2 7 targetY targetZ none) (targetX - 1) targetY targetZ
              (some { rook with x := targetX - 1, hasMoved := true })
        | none => scratch2
    | some CastleSide.queen =>
        match scratch2 0 targetY targetZ with
        | some rook =>
            setCell (setCell scratch2 0 targetY targetZ none) (targetX + 1) targetY targetZ
              (some { rook with x := targetX + 1, hasMoved := true })
        | none => scratch2
    | none => scratch2
  { input := b, inputCap := cp, scratch := scratch3, scratchCap := scratchCap1 }

/-- `executeMove` on the local (offline) state path: either flags a pending
promotion and returns without touching board/turn/captures, or commits the
scratch board and capture lists and passes the turn. -/
def executeMove (s : AppState) (piece : Piece) (targetX targetY targetZ : Nat)
    (move : Move) : AppState :=
  if piece.type = PieceType.P ∧ targetZ = promotionRank piece.color then
    { s with promotionData := some ⟨piece, targetX, targetY, targetZ⟩ }
  else
    let fr := executeMoveCore s.boardState s.capturedPieces piece targetX targetY targetZ move
    { s with
        boardState := fr.scratch
        capturedPieces := fr.scratchCap
        turn := oppColor s.turn
        selectedPiece := none }

/-- The body of `handlePromotion` past the `promotionData` guard: vacate the
pawn's square, record any occupant of the destination as captured, and place
the freshly built promoted piece. -/
def handlePromotionCore (b : Board) (cp : CapturedPieces) (pd : PromotionData)
    (promotedTo : PieceType) : ExecFrame :=
  let scratch0 := (cloneFrame b cp).scratch
  let scratchCap0 := (cloneFrame b cp).scratchCap
  let scratch1 := setCell scratch0 pd.piece.x pd.piece.y pd.piece.z none
  let targetPiece := scratch1 pd.x pd.y pd.z
  let scratchCap1 :=
    match targetPiece with
    | some tp => pushCaptured scratchCap0 (oppColor pd.piece.color) tp
    | none => scratchCap0
  let promoted : Piece :=
    { type := promotedTo, color := pd.piece.color, x := pd.x, y := pd.y, z := pd.z,
      hasMoved := true }
  { input := b, inputCap := cp, scratch := setCell scratch1 pd.x pd.y pd.z (some promoted),
    scratchCap := scratchCap1 }

/-- `handlePromotion` on the local state path. -/
def handlePromotion (s : AppState) (promotedTo : PieceType) : AppState :=
  match s.promotionData with
  | none => s
  | some pd =>
      let fr := handlePromotionCore s.boardState s.capturedPieces pd promotedTo
      { s with
          boardState := fr.scratch
          capturedPieces := fr.scratchCap
          turn := oppColor s.turn
          selectedPiece := none
          promotionData := none }

/-- `handleSquareClick(x, y, z)`: terminal/pending/turn guards, then either
execute a matching valid move or update the selection. -/
def handleSquareClick (s : AppState) (x y z : Nat) : AppState :=
  if s.gameStatus ≠ "active" ∨ s.promotionData ≠ none then s
  else if s.gameId ≠ none ∧ s.playerColor ≠ some s.turn then s
  else
    let clickedPiece := s.boardState x y z
    match s.selectedPiece with
    | some piece =>
        match s.validMoves.find? (fun m => m.x == x && m.y == y && m.z == z) with
        | some move => executeMove s piece x y z move
        | none =>
            match clickedPiece with
            | some cp =>
                if cp.color = s.turn then { s with selectedPiece := some cp }
                else { s with selectedPiece := none }
            | none => { s with selectedPiece := none }
    | none =>
        match clickedPiece with
        | some cp => if cp.color = s.turn then { s with selectedPiece := some cp } else s
        | none => s

/-- `'BLACK'` / `'WHITE'` as written into the checkmate status string. -/
def winnerName : Color → String
  | Color.white => "WHITE"
  | Color.black => "BLACK"

/-- The status string the checkmate branch stores. -/
def checkmateMsg (winner : Color) : String :=
  "CHECKMATE! " ++ winnerName winner ++ " WINS!"

/-- The status string the stalemate branch stores. -/
def stalemateMsg : String := "STALEMATE! Game is a draw."

/-- Modelled from the spec: `isCheckmate` lives in `lib/gameLogic`, which is
not in the repository snapshot; per the spec it holds when the side to move
is in check and has no legal move for any of its pieces.  Parametrised over
the in-check and any-legal-move primitives. -/
def isCheckmateSpec (inCheckP anyLegalP : Color → Board → Bool) (c : Color) (b : Board) : Bool :=
  inCheckP c b && !(anyLegalP c b)

/-- Modelled from the spec: `isStalemate` (also from `lib/gameLogic`) holds
when the side to move is not in check and has no legal move. -/
def isStalemateSpec (inCheckP anyLegalP : Color → Board → Bool) (c : Color) (b : Board) : Bool :=
  !(inCheckP c b) && !(anyLegalP c b)

/-- The game-status `useEffect` of `App`, on the local path: guard on an
active game and (online) on it being this player's turn, then the
checkmate / stalemate / in-check-indicator update, returning the new
`(gameStatus, kingInCheck)` pair. -/
def gameStatusEffect (inCheckP anyLegalP : Color → Board → Bool) (status : String)
    (gameId : Option String) (playerColor : Option Color) (turn : Color) (b : Board)
    (kic : Option Color) : String × Option Color :=
  if status ≠ "active" ∨ (gameId ≠ none ∧ playerColor ≠ some turn) then (status, kic)
  else if isCheckmateSpec inCheckP anyLegalP turn b then (checkmateMsg (oppColor turn), none)
  else if isStalemateSpec inCheckP anyLegalP turn b then (stalemateMsg, none)
  else
    let inCheck := inCheckP turn b
    if (inCheck && decide (kic ≠ some turn)) || (!inCheck && decide (kic ≠ none)) then
      (status, if inCheck then some turn else none)
    else (status, kic)

/-- The spec's §4.5 transition rule, stated in the code's representation of
statuses: Checkmate(opponent) when in check with no legal move, Stalemate
when not in check with no legal move, otherwise the game stays active with
the in-check indicator set exactly when the king is attacked. -/
def specGameTransition (inCheckP anyLegalP : Color → Board → Bool) (turn : Color)
    (b : Board) : String × Option Color :=
  if inCheckP turn b && !(anyLegalP turn b) then (checkmateMsg (oppColor turn), none)
  else if !(inCheckP turn b) && !(anyLegalP turn b) then (stalemateMsg, none)
  else ("active", if inCheckP turn b then some turn else none)

/-- The game record stored under `games/<code>` in the realtime database. -/
structure GameState where
  boardState : Board
  turn : Color
  capturedPieces : CapturedPieces
  gameStatus : String
  kingInCheck : Option Color
  playerCount : Nat

/-- `joinGameInDb`, with the database row for the supplied code made
explicit: returns the new stored row paired with the settled result —
`ok none` when no game exists, `ok (some g)` (the pre-update snapshot) after
setting `playerCount` to 2, or the `"Game is full."` error. -/
def joinGameInDb (stored : Option GameState) :
    Option GameState × Except String (Option GameState) :=
  match stored with
  | none => (stored, Except.ok none)
  | some g =>
      if g.playerCount < 2 then
        (some { g with playerCount := 2 }, Except.ok (some g))
      else
        (stored, Except.error "Game is full.")

/-- Position coherence: the piece stored in a cell records that cell as its
coordinates.  Together with the functional board this is the occupancy
invariant: a cell holds at most one piece, and a piece value sits in at most
one cell (two cells holding the same piece would both equal its recorded
coordinates). -/
def boardCoherent (b : Board) : Prop :=
  ∀ x y z p, b x y z = some p → p.x = x ∧ p.y = y ∧ p.z = z

/-- `hasMoved` never goes back from `true` to `false`: every cell of the new
board is either untouched or holds a piece whose flag is set. -/
def hasMovedMonotone (old new : Board) : Prop :=
  ∀ x y z p, new x y z = some p → old x y z = some p ∨ p.hasMoved = true

/-! Concrete fixtures used by the witness and counterexample theorems. -/

def emptyBoard : Board := fun _ _ _ => none

/-- A fresh offline state with an empty board, White to move. -/
def sBase : AppState :=
  { boardState := emptyBoard, turn := Color.white, selectedPiece := none, validMoves := [],
    capturedPieces := { white := [], black := [] }, gameStatus := "active",
    kingInCheck := none, promotionData := none, gameId := none, playerColor := none }

def constTrue : Color → Board → Bool := fun _ _ => true

def constFalse : Color → Board → Bool := fun _ _ => false

def pawnW : Piece :=
  { type := PieceType.P, color := Color.white, x := 0, y := 1, z := 6, hasMoved := true }

def pdW : PromotionData := { piece := pawnW, x := 0, y := 1, z := 7 }

def sPromo : AppState := { sBase with promotionData := some pdW }

def mvPromo : Move := { x := 0, y := 1, z := 7, castle := none }

/-- A white pawn about to land on the rank `y = 7` (but layer `z = 3`). -/
def pawnY : Piece :=
  { type := PieceType.P, color := Color.white, x := 0, y := 6, z := 3, hasMoved := false }

def mvA : Move := { x := 0, y := 7, z := 3, castle := none }

/-- A white pawn about to land on the layer `z = 7` (but rank `y = 3`). -/
def pawnZ : Piece :=
  { type := PieceType.P, color := Color.white, x := 0, y := 2, z := 6, hasMoved := false }

def mvB : Move := { x := 0, y := 3, z := 7, castle := none }

def rookW : Piece :=
  { type := PieceType.R, color := Color.white, x := 0, y := 0, z := 0, hasMoved := false }

def mv47 : Move := { x := 4, y := 4, z := 4, castle := none }

def sSel : AppState := { sBase with selectedPiece := some rookW, validMoves := [mv47] }

def kingW : Piece :=
  { type := PieceType.K, color := Color.white, x := 4, y := 0, z := 0, hasMoved := false }

def rookK : Piece :=
  { type := PieceType.R, color := Color.white, x := 7, y := 0, z := 0, hasMoved := false }

def bCastle : Board := fun x y z =>
  if x = 4 ∧ y = 0 ∧ z = 0 then some kingW
  else if x = 7 ∧ y = 0 ∧ z = 0 then some rookK
  else none

def sCastle : AppState := { sBase with boardState := bCastle }

def mvCastle : Move := { x := 6, y := 0, z := 0, castle := some CastleSide.king }

def victimB : Piece :=
  { type := PieceType.P, color := Color.black, x := 0, y := 0, z := 1, hasMoved := false }

def bCap : Board := fun x y z =>
  if x = 0 ∧ y = 0 ∧ z = 0 then some rookW
  else if x = 0 ∧ y = 0 ∧ z = 1 then some victimB
  else none

def sCap : AppState := { sBase with boardState := bCap }

def mvCap : Move := { x := 0, y := 0, z := 1, castle := none }

def sDone : AppState := { sBase with gameStatus := "CHECKMATE! WHITE WINS!" }

/-- The corner file the castling branch reads the rook from. -/
def cornerX : CastleSide → Nat
  | CastleSide.king => 7
  | CastleSide.queen => 0

/-- The file the castling branch writes the rook to, next to the king. -/
def rookDestX : CastleSide → Nat → Nat
  | CastleSide.king, tx => tx - 1
  | CastleSide.queen, tx => tx + 1

def gFullC : GameState :=
  { boardState := emptyBoard, turn := Color.white,
    capturedPieces := { white := [], black := [] }, gameStatus := "active",
    kingInCheck := none, playerCount := 2 }

/-! Helper lemmas shared by the claim theorems. -/

theorem oppColor_ne (c : Color) : oppColor c ≠ c := by
  cases c <;> simp [oppColor]

theorem setCell_eval (b : Board) (x y z v a c d) :
    setCell b x y z v a c d = if a = x ∧ c = y ∧ d = z then v else b a c d := rfl

theorem setCell_same (b : Board) (x y z v) : setCell b x y z v x y z = v := by
  simp [setCell]

theorem setCell_other (b : Board) (x y z v a c d) (h : ¬(a = x ∧ c = y ∧ d = z)) :
    setCell b x y z v a c d = b a c d := by
  simp only [setCell, if_neg h]

theorem capList_push_same (cp : CapturedPieces) (c : Color) (p : Piece) :
    capList (pushCaptured cp c p) c = capList cp c ++ [p] := by
  cases c <;> rfl

theorem capList_push_other (cp : CapturedPieces) (c c1 : Color) (p : Piece) (h : c1 ≠ c) :
    capList (pushCaptured cp c p) c1 = capList cp c1 := by
  cases c <;> cases c1 <;> first
    | rfl
    | exact absurd rfl h

theorem boardCoherent_setCell_none (b : Board) (x y z : Nat) (hco : boardCoherent b) :
    boardCoherent (setCell b x y z none) := by
  intro a c d p h
  rw [setCell_eval] at h
  split at h
  · exact absurd h (by simp)
  · exact hco a c d p h

theorem boardCoherent_setCell_some (b : Board) (x y z : Nat) (p : Piece)
    (hco : boardCoherent b) (hp : p.x = x ∧ p.y = y ∧ p.z = z) :
    boardCoherent (setCell b x y z (some p)) := by
  intro a c d q h
  rw [setCell_eval] at h
  split at h
  next hcond =>
    cases h
    exact ⟨hp.1.trans hcond.1.symm, hp.2.1.trans hcond.2.1.symm, hp.2.2.trans hcond.2.2.symm⟩
  next => exact hco a c d q h

theorem hasMovedMonotone_refl (b : Board) : hasMovedMonotone b b :=
  fun _ _ _ _ h => Or.inl h

theorem hasMovedMonotone_setCell_none (b0 b : Board) (x y z : Nat)
    (h : hasMovedMonotone b0 b) : hasMovedMonotone b0 (setCell b x y z none) := by
  intro a c d p hp
  rw [setCell_eval] at hp
  split at hp
  · exact absurd hp (by simp)
  · exact h a c d p hp

theorem hasMovedMonotone_setCell_true (b0 b : Board) (x y z : Nat) (p : Piece)
    (h : hasMovedMonotone b0 b) (hp : p.hasMoved = true) :
    hasMovedMonotone b0 (setCell b x y z (some p)) := by
  intro a c d q hq
  rw [setCell_eval] at hq
  split at hq
  · cases hq
    exact Or.inr hp
  · exact h a c d q hq

theorem executeMove_proj (s : AppState) (piece : Piece) (tx ty tz : Nat) (move : Move)
    (hnp : ¬(piece.type = PieceType.P ∧ tz = promotionRank piece.color)) :
    (executeMove s piece tx ty tz move).boardState =
      (executeMoveCore s.boardState s.capturedPieces piece tx ty tz move).scratch ∧
    (executeMove s piece tx ty tz move).capturedPieces =
      (executeMoveCore s.boardState s.capturedPieces piece tx ty tz move).scratchCap ∧
    (executeMove s piece tx ty tz move).turn = oppColor s.turn := by
  unfold executeMove
  rw [if_neg hnp]
  exact ⟨rfl, rfl, rfl⟩

theorem executeMoveCore_scratchCap (b : Board) (cp : CapturedPieces) (piece : Piece)
    (tx ty tz : Nat) (move : Move) :
    (executeMoveCore b cp piece tx ty tz move).scratchCap =
      match b tx ty tz with
      | some tp => pushCaptured cp (oppColor piece.color) tp
      | none => cp := rfl

theorem executeMoveCore_scratch_nocastle (b : Board) (cp : CapturedPieces) (piece : Piece)
    (tx ty tz : Nat) (move : Move) (hc : move.castle = none) :
    (executeMoveCore b cp piece tx ty tz move).scratch =
      setCell (setCell b piece.x piece.y piece.z none) tx ty tz
        (some { piece with x := tx, y := ty, z := tz, hasMoved := true }) := by
  simp only [executeMoveCore, cloneFrame, hc]

theorem executeMoveCore_scratch_castle_king (b : Board) (cp : CapturedPieces) (piece : Piece)
    (tx ty tz : Nat) (move : Move) (hc : move.castle = some CastleSide.king) (r : Piece)
    (hr : setCell (setCell b piece.x piece.y piece.z none) tx ty tz
        (some { piece with x := tx, y := ty, z := tz, hasMoved := true }) 7 ty tz = some r) :
    (executeMoveCore b cp piece tx ty tz move).scratch =
      setCell (setCell (setCell (setCell b piece.x piece.y piece.z none) tx ty tz
          (some { piece with x := tx, y := ty, z := tz, hasMoved := true })) 7 ty tz none)
        (tx - 1) ty tz (some { r with x := tx - 1, hasMoved := true }) := by
  simp only [executeMoveCore, cloneFrame, hc, hr]

theorem executeMoveCore_scratch_castle_queen (b : Board) (cp : CapturedPieces) (piece : Piece)
    (tx ty tz : Nat) (move : Move) (hc : move.castle = some CastleSide.queen) (r : Piece)
    (hr : setCell (setCell b piece.x piece.y piece.z none) tx ty tz
        (some { piece with x := tx, y := ty, z := tz, hasMoved := true }) 0 ty tz = some r) :
    (executeMoveCore b cp piece tx ty tz move).scratch =
      setCell (setCell (setCell (setCell b piece.x piece.y piece.z none) tx ty tz
          (some { piece with x := tx, y := ty, z := tz, hasMoved := true })) 0 ty tz none)
        (tx + 1) ty tz (some { r with x := tx + 1, hasMoved := true }) := by
  simp only [executeMoveCore, cloneFrame, hc, hr]

theorem handlePromotionCore_scratch (b : Board) (cp : CapturedPieces) (pd : PromotionData)
    (t : PieceType) :
    (handlePromotionCore b cp pd t).scratch =
      setCell (setCell b pd.piece.x pd.piece.y pd.piece.z none) pd.x pd.y pd.z
        (some { type := t, color := pd.piece.color, x := pd.x, y := pd.y, z := pd.z,
                hasMoved := true }) := rfl

theorem handlePromotionCore_scratchCap (b : Board) (cp : CapturedPieces) (pd : PromotionData)
    (t : PieceType) :
    (handlePromotionCore b cp pd t).scratchCap =
      match setCell b pd.piece.x pd.piece.y pd.piece.z none pd.x pd.y pd.z with
      | some tp => pushCaptured cp (oppColor pd.piece.color) tp
      | none => cp := rfl

theorem handlePromotion_proj (s : AppState) (t : PieceType) (pd : PromotionData)
    (hpd : s.promotionData = some pd) :
    (handlePromotion s t).boardState =
      (handlePromotionCore s.boardState s.capturedPieces pd t).scratch ∧
    (handlePromotion s t).capturedPieces =
      (handlePromotionCore s.boardState s.capturedPieces pd t).scratchCap ∧
    (handlePromotion s t).turn = oppColor s.turn := by
  unfold handlePromotion
  simp [hpd]

theorem executeMoveCore_monotone (b : Board) (cp : CapturedPieces) (piece : Piece)
    (tx ty tz : Nat) (move : Move) :
    hasMovedMonotone b (executeMoveCore b cp piece tx ty tz move).scratch := by
  have base : hasMovedMonotone b
      (setCell (setCell b piece.x piece.y piece.z none) tx ty tz
        (some { piece with x := tx, y := ty, z := tz, hasMoved := true })) :=
    hasMovedMonotone_setCell_true _ _ _ _ _ _
      (hasMovedMonotone_setCell_none _ _ _ _ _ (hasMovedMonotone_refl b)) rfl
  rcases hcs : move.castle with _ | cs
  · rw [executeMoveCore_scratch_nocastle _ _ _ _ _ _ _ hcs]
    exact base
  · cases cs
    case king =>
      rcases hr : setCell (setCell b piece.x piece.y piece.z none) tx ty tz
          (some { piece with x := tx, y := ty, z := tz, hasMoved := true }) 7 ty tz
        with _ | r
      · have : (executeMoveCore b cp piece tx ty tz move).scratch =
            setCell (setCell b piece.x piece.y piece.z none) tx ty tz
              (some { piece with x := tx, y := ty, z := tz, hasMoved := true }) := by
          simp only [executeMoveCore, cloneFrame, hcs, hr]
        rw [this]
        exact base
      · rw [executeMoveCore_scratch_castle_king _ _ _ _ _ _ _ hcs r hr]
        exact hasMovedMonotone_setCell_true _ _ _ _ _ _
          (hasMovedMonotone_setCell_none _ _ _ _ _ base) rfl
    case queen =>
      rcases hr : setCell (setCell b piece.x piece.y piece.z none) tx ty tz
          (some { piece with x := tx, y := ty, z := tz, hasMoved := true }) 0 ty tz
        with _ | r
      · have : (executeMoveCore b cp piece tx ty tz move).scratch =
            setCell (setCell b piece.x piece.y piece.z none) tx ty tz
              (some { piece with x := tx, y := ty, z := tz, hasMoved := true }) := by
          simp only [executeMoveCore, cloneFrame, hcs, hr]
        rw [this]
        exact base
      · rw [executeMoveCore_scratch_castle_queen _ _ _ _ _ _ _ hcs r hr]
        exact hasMovedMonotone_setCell_true _ _ _ _ _ _
          (hasMovedMonotone_setCell_none _ _ _ _ _ base) rfl

theorem bCap_coherent : boardCoherent bCap := by
  intro x y z p h
  unfold bCap at h
  split at h
  next h1 =>
    cases h
    exact ⟨h1.1.symm, h1.2.1.symm, h1.2.2.symm⟩
  next =>
    split at h
    next h2 =>
      cases h
      exact ⟨h2.1.symm, h2.2.1.symm, h2.2.2.symm⟩
    next => exact absurd h (by simp)

/-! Claim theorems. -/

/-- C9: Checkmate and Stalemate are terminal — once `gameStatus` is anything
other than `"active"`, a square-click request returns the state unchanged:
no move executes and board, turn, captured sets and selection are all as
they were. -/
theorem handleSquareClick_terminal_frozen (s : AppState) (x y z : Nat)
    (h : s.gameStatus ≠ "active") : handleSquareClick s x y z = s := by
  unfold handleSquareClick
  rw [if_pos (Or.inl h)]

theorem handleSquareClick_terminal_frozen_witness :
    sDone.gameStatus ≠ "active" ∧ handleSquareClick sDone 1 2 3 = sDone :=
  ⟨by decide, handleSquareClick_terminal_frozen sDone 1 2 3 (by decide)⟩

/-- C10: `joinGameInDb` settles exactly three ways: no stored game under the
code yields `null` with the database untouched; a stored game with
`playerCount < 2` has its `playerCount` set to 2 and the stored snapshot is
returned; a stored game with `playerCount ≥ 2` raises `"Game is full."` and
returns no state, the row unchanged. -/
theorem joinGameInDb_trichotomy (stored : Option GameState) :
    (stored = none → joinGameInDb stored = (none, Except.ok none)) ∧
    (∀ g, stored = some g → g.playerCount < 2 →
        joinGameInDb stored = (some { g with playerCount := 2 }, Except.ok (some g))) ∧
    (∀ g, stored = some g → 2 ≤ g.playerCount →
        joinGameInDb stored = (some g, Except.error "Game is full.")) := by
  refine ⟨?_, ?_, ?_⟩
  · intro h
    subst h
    rfl
  · intro g hg hlt
    subst hg
    simp [joinGameInDb, hlt]
  · intro g hg hge
    subst hg
    simp [joinGameInDb, Nat.not_lt.mpr hge]

theorem joinGameInDb_trichotomy_witness :
    joinGameInDb (some gFullC) = (some gFullC, Except.error "Game is full.") :=
  (joinGameInDb_trichotomy (some gFullC)).2.2 gFullC rfl (by decide)

/-- C8: neither `executeMove` nor `handlePromotion` mutates the caller's
board or captured-piece objects: both handlers deep-clone them first and
every subsequent write goes to the clone, so at the end of the call frame
the `input`/`inputCap` objects still hold exactly the values the caller
supplied. -/
theorem executors_leave_inputs_unchanged (b : Board) (cp : CapturedPieces) (piece : Piece)
    (tx ty tz : Nat) (move : Move) (pd : PromotionData) (t : PieceType) :
    (executeMoveCore b cp piece tx ty tz move).input = b ∧
    (executeMoveCore b cp piece tx ty tz move).inputCap = cp ∧
    (handlePromotionCore b cp pd t).input = b ∧
    (handlePromotionCore b cp pd t).inputCap = cp :=
  ⟨rfl, rfl, rfl, rfl⟩

/-- C4: a click on a destination that is not in the legality-filtered
`validMoves` set never applies a move — the board, the captured-piece sets
and the side to move are unchanged (only the selection may change). -/
theorem handleSquareClick_illegal_unchanged (s : AppState) (x y z : Nat)
    (h : ∀ m ∈ s.validMoves, ¬(m.x = x ∧ m.y = y ∧ m.z = z)) :
    (handleSquareClick s x y z).boardState = s.boardState ∧
    (handleSquareClick s x y z).capturedPieces = s.capturedPieces ∧
    (handleSquareClick s x y z).turn = s.turn := by
  unfold handleSquareClick
  split
  · exact ⟨rfl, rfl, rfl⟩
  split
  · exact ⟨rfl, rfl, rfl⟩
  split
  next piece hsel =>
    split
    next move hfind =>
      exfalso
      have hmem := List.mem_of_find?_eq_some hfind
      have hp := List.find?_some hfind
      simp only [Bool.and_eq_true, beq_iff_eq] at hp
      exact h move hmem ⟨hp.1.1, hp.1.2, hp.2⟩
    next hfind =>
      cases hcp : s.boardState x y z with
      | some cp => by_cases hq : cp.color = s.turn <;> simp [hcp, hq]
      | none => simp [hcp]
  next hsel =>
    cases hcp : s.boardState x y z with
    | some cp => by_cases hq : cp.color = s.turn <;> simp [hcp, hq]
    | none => simp [hcp]

theorem handleSquareClick_illegal_unchanged_witness :
    (∀ m ∈ sSel.validMoves, ¬(m.x = 1 ∧ m.y = 1 ∧ m.z = 1)) ∧
    (handleSquareClick sSel 1 1 1).boardState = sSel.boardState ∧
    (handleSquareClick sSel 1 1 1).capturedPieces = sSel.capturedPieces ∧
    (handleSquareClick sSel 1 1 1).turn = sSel.turn :=
  ⟨by decide, handleSquareClick_illegal_unchanged sSel 1 1 1 (by decide)⟩

/-- C1: on an active game, the post-move game-state evaluation classifies
the position exactly as the spec transition rule: in check with no legal
move gives Checkmate with the opponent as winner, not in check with no
legal move gives Stalemate, and otherwise the game stays active with the
in-check indicator set for the side to move exactly when its king is
attacked.  Stated for arbitrary in-check and any-legal-move primitives,
since `lib/gameLogic` is outside the snapshot. -/
theorem gameStatusEffect_matches_spec (P Q : Color → Board → Bool) (status : String)
    (gameId : Option String) (playerColor : Option Color) (turn : Color) (b : Board)
    (kic : Option Color) (hs : status = "active") (hg : gameId = none) :
    gameStatusEffect P Q status gameId playerColor turn b kic =
      specGameTransition P Q turn b := by
  subst hs hg
  unfold gameStatusEffect specGameTransition isCheckmateSpec isStalemateSpec
  rw [if_neg (by simp)]
  rcases kic with _ | c
  · cases hP : P turn b <;> cases hQ : Q turn b <;> simp [hP, hQ]
  · by_cases hc : c = turn
    · cases hP : P turn b <;> cases hQ : Q turn b <;> simp [hP, hQ, hc]
    · cases hP : P turn b <;> cases hQ : Q turn b <;> simp [hP, hQ, hc]

theorem gameStatusEffect_matches_spec_witness :
    gameStatusEffect constTrue constFalse "active" none none Color.white emptyBoard none =
      specGameTransition constTrue constFalse Color.white emptyBoard :=
  gameStatusEffect_matches_spec constTrue constFalse "active" none none Color.white
    emptyBoard none rfl rfl

/-- C2: a pawn move onto the promotion rank only records the pending
promotion — board, captured sets and turn are untouched; once a piece type
is supplied, the destination holds a piece of the chosen type with the
pawn's color and `hasMoved = true`, the pawn's source square is empty, any
occupant of the destination is pushed onto the captured report, and the
turn passes to the opponent. -/
theorem promotion_round_trip (s1 : AppState) (piece : Piece) (tx ty tz : Nat) (move : Move)
    (h1 : piece.type = PieceType.P) (h2 : tz = promotionRank piece.color)
    (s2 : AppState) (pd : PromotionData) (t : PieceType)
    (hpd : s2.promotionData = some pd)
    (hne : ¬(pd.piece.x = pd.x ∧ pd.piece.y = pd.y ∧ pd.piece.z = pd.z)) :
    executeMove s1 piece tx ty tz move =
      { s1 with promotionData := some { piece := piece, x := tx, y := ty, z := tz } } ∧
    (handlePromotion s2 t).boardState pd.x pd.y pd.z =
      some { type := t, color := pd.piece.color, x := pd.x, y := pd.y, z := pd.z,
             hasMoved := true } ∧
    (handlePromotion s2 t).boardState pd.piece.x pd.piece.y pd.piece.z = none ∧
    (handlePromotion s2 t).capturedPieces =
      (match s2.boardState pd.x pd.y pd.z with
       | some v => pushCaptured s2.capturedPieces (oppColor pd.piece.color) v
       | none => s2.capturedPieces) ∧
    (handlePromotion s2 t).turn = oppColor s2.turn := by
  obtain ⟨hb, hcap, hturn⟩ := handlePromotion_proj s2 t pd hpd
  have hne2 : ¬(pd.x = pd.piece.x ∧ pd.y = pd.piece.y ∧ pd.z = pd.piece.z) := by
    intro hcontra
    exact hne ⟨hcontra.1.symm, hcontra.2.1.symm, hcontra.2.2.symm⟩
  refine ⟨?_, ?_, ?_, ?_, hturn⟩
  · unfold executeMove
    rw [if_pos ⟨h1, h2⟩]
  · rw [hb, handlePromotionCore_scratch]
    exact setCell_same _ _ _ _ _
  · rw [hb, handlePromotionCore_scratch, setCell_other _ _ _ _ _ _ _ _ hne]
    exact setCell_same _ _ _ _ _
  · rw [hcap, handlePromotionCore_scratchCap,
      setCell_other _ _ _ _ _ _ _ _ hne2]

theorem promotion_round_trip_witness :
    executeMove sBase pawnW 0 1 7 mvPromo =
      { sBase with promotionData := some { piece := pawnW, x := 0, y := 1, z := 7 } } ∧
    (handlePromotion sPromo PieceType.Q).boardState pdW.x pdW.y pdW.z =
      some { type := PieceType.Q, color := pdW.piece.color, x := pdW.x, y := pdW.y,
             z := pdW.z, hasMoved := true } ∧
    (handlePromotion sPromo PieceType.Q).boardState pdW.piece.x pdW.piece.y pdW.piece.z =
      none ∧
    (handlePromotion sPromo PieceType.Q).capturedPieces =
      (match sPromo.boardState pdW.x pdW.y pdW.z with
       | some v => pushCaptured sPromo.capturedPieces (oppColor pdW.piece.color) v
       | none => sPromo.capturedPieces) ∧
    (handlePromotion sPromo PieceType.Q).turn = oppColor sPromo.turn :=
  promotion_round_trip sBase pawnW 0 1 7 mvPromo rfl rfl sPromo pdW PieceType.Q rfl
    (by decide)

/-- C3 counterexample: the claim ties promotion to the y axis, but the code
checks `targetZ`.  A white pawn moved to `(0, 7, 3)` — rank `y = 7`, the
claim's promotion rank — is executed outright (no pending promotion, turn
passes), while a white pawn moved to `(0, 3, 7)` — layer `z = 7`, not on
the claim's rank — does trigger the pending promotion. -/
theorem pawn_promotion_y_rank_counterexample :
    pawnY.type = PieceType.P ∧ pawnY.color = Color.white ∧
    (executeMove sBase pawnY 0 7 3 mvA).promotionData = none ∧
    (executeMove sBase pawnY 0 7 3 mvA).turn = Color.black ∧
    pawnZ.type = PieceType.P ∧
    (executeMove sBase pawnZ 0 3 7 mvB).promotionData =
      some { piece := pawnZ, x := 0, y := 3, z := 7 } := by
  refine ⟨rfl, rfl, ?_, ?_, rfl, ?_⟩ <;> rfl

/-- C3 amended: the pawn's promotion axis is z (the layer axis; the home
layers of the initial setup sit at z = 0/1 for White and z = 7/6 for
Black): executing a pawn move triggers the promotion-pending outcome —
promotion recorded, board and turn untouched — exactly when the destination
lies on the farthest layer of that axis, `z = 7` for White and `z = 0` for
Black. -/
theorem pawn_promotion_z_axis (s : AppState) (piece : Piece) (tx ty tz : Nat) (move : Move)
    (hP : piece.type = PieceType.P) :
    ((executeMove s piece tx ty tz move).promotionData =
        some { piece := piece, x := tx, y := ty, z := tz } ∧
      (executeMove s piece tx ty tz move).turn = s.turn ∧
      (executeMove s piece tx ty tz move).boardState = s.boardState)
    ↔ tz = promotionRank piece.color := by
  unfold executeMove
  by_cases h : piece.type = PieceType.P ∧ tz = promotionRank piece.color
  · rw [if_pos h]
    exact ⟨fun _ => h.2, fun _ => ⟨rfl, rfl, rfl⟩⟩
  · rw [if_neg h]
    have htz : tz ≠ promotionRank piece.color := fun hcontra => h ⟨hP, hcontra⟩
    constructor
    · rintro ⟨-, hturn, -⟩
      exact absurd hturn (oppColor_ne s.turn)
    · intro hcontra
      exact absurd hcontra htz

theorem pawn_promotion_z_axis_witness :
    ((executeMove sBase pawnZ 0 3 7 mvB).promotionData =
        some { piece := pawnZ, x := 0, y := 3, z := 7 } ∧
      (executeMove sBase pawnZ 0 3 7 mvB).turn = sBase.turn ∧
      (executeMove sBase pawnZ 0 3 7 mvB).boardState = sBase.boardState)
    ↔ (7 : Nat) = promotionRank pawnZ.color :=
  pawn_promotion_z_axis sBase pawnZ 0 3 7 mvB rfl

/-- C5: executing a legal castling move relocates the paired rook from its
corner (`x = 7` kingside, `x = 0` queenside) to the square horizontally
adjacent to the king's new position (`x − 1` kingside, `x + 1` queenside,
same y and z), vacates the corner, and sets the rook's `hasMoved` flag. -/
theorem castling_rook_relocation (s : AppState) (piece : Piece) (tx ty tz : Nat)
    (move : Move) (cs : CastleSide) (r : Piece)
    (hK : piece.type = PieceType.K)
    (hc : move.castle = some cs)
    (hlo : 1 ≤ tx) (hhi : tx ≤ 6)
    (hr : s.boardState (cornerX cs) ty tz = some r)
    (_hrT : r.type = PieceType.R)
    (hsrc : ¬(piece.x = cornerX cs ∧ piece.y = ty ∧ piece.z = tz)) :
    (executeMove s piece tx ty tz move).boardState (rookDestX cs tx) ty tz =
      some { r with x := rookDestX cs tx, hasMoved := true } ∧
    (executeMove s piece tx ty tz move).boardState (cornerX cs) ty tz = none := by
  have hnp : ¬(piece.type = PieceType.P ∧ tz = promotionRank piece.color) := by
    intro hcontra
    rw [hK] at hcontra
    exact absurd hcontra.1 (by decide)
  obtain ⟨hb, -, -⟩ := executeMove_proj s piece tx ty tz move hnp
  cases cs
  case king =>
    simp only [cornerX, rookDestX] at hr hsrc ⊢
    have e1 : setCell (setCell s.boardState piece.x piece.y piece.z none) tx ty tz
        (some { piece with x := tx, y := ty, z := tz, hasMoved := true }) 7 ty tz =
        setCell s.boardState piece.x piece.y piece.z none 7 ty tz :=
      setCell_other _ _ _ _ _ _ _ _ (by intro hcontra; omega)
    have e2 : setCell s.boardState piece.x piece.y piece.z none 7 ty tz =
        s.boardState 7 ty tz :=
      setCell_other _ _ _ _ _ _ _ _
        (fun hcontra => hsrc ⟨hcontra.1.symm, hcontra.2.1.symm, hcontra.2.2.symm⟩)
    have hcell := e1.trans (e2.trans hr)
    rw [hb, executeMoveCore_scratch_castle_king _ _ _ _ _ _ _ hc r hcell]
    refine ⟨setCell_same _ _ _ _ _, ?_⟩
    have e3 : setCell (setCell (setCell (setCell s.boardState piece.x piece.y piece.z none)
          tx ty tz (some { piece with x := tx, y := ty, z := tz, hasMoved := true }))
          7 ty tz none) (tx - 1) ty tz (some { r with x := tx - 1, hasMoved := true })
          7 ty tz =
        setCell (setCell (setCell s.boardState piece.x piece.y piece.z none) tx ty tz
          (some { piece with x := tx, y := ty, z := tz, hasMoved := true })) 7 ty tz none
          7 ty tz :=
      setCell_other _ _ _ _ _ _ _ _ (by intro hcontra; omega)
    exact e3.trans (setCell_same _ _ _ _ _)
  case queen =>
    simp only [cornerX, rookDestX] at hr hsrc ⊢
    have e1 : setCell (setCell s.boardState piece.x piece.y piece.z none) tx ty tz
        (some { piece with x := tx, y := ty, z := tz, hasMoved := true }) 0 ty tz =
        setCell s.boardState piece.x piece.y piece.z none 0 ty tz :=
      setCell_other _ _ _ _ _ _ _ _ (by intro hcontra; omega)
    have e2 : setCell s.boardState piece.x piece.y piece.z none 0 ty tz =
        s.boardState 0 ty tz :=
      setCell_other _ _ _ _ _ _ _ _
        (fun hcontra => hsrc ⟨hcontra.1.symm, hcontra.2.1.symm, hcontra.2.2.symm⟩)
    have hcell := e1.trans (e2.trans hr)
    rw [hb, executeMoveCore_scratch_castle_queen _ _ _ _ _ _ _ hc r hcell]
    refine ⟨setCell_same _ _ _ _ _, ?_⟩
    have e3 : setCell (setCell (setCell (setCell s.boardState piece.x piece.y piece.z none)
          tx ty tz (some { piece with x := tx, y := ty, z := tz, hasMoved := true }))
          0 ty tz none) (tx + 1) ty tz (some { r with x := tx + 1, hasMoved := true })
          0 ty tz =
        setCell (setCell (setCell s.boardState piece.x piece.y piece.z none) tx ty tz
          (some { piece with x := tx, y := ty, z := tz, hasMoved := true })) 0 ty tz none
          0 ty tz :=
      setCell_other _ _ _ _ _ _ _ _ (by intro hcontra; omega)
    exact e3.trans (setCell_same _ _ _ _ _)

theorem castling_rook_relocation_witness :
    (executeMove sCastle kingW 6 0 0 mvCastle).boardState
        (rookDestX CastleSide.king 6) 0 0 =
      some { rookK with x := rookDestX CastleSide.king 6, hasMoved := true } ∧
    (executeMove sCastle kingW 6 0 0 mvCastle).boardState (cornerX CastleSide.king) 0 0 =
      none :=
  castling_rook_relocation sCastle kingW 6 0 0 mvCastle CastleSide.king rookK rfl rfl
    (by decide) (by decide) (by decide) rfl (by decide)

/-- C6: a capturing move adds exactly the destination's occupant to the
mover's captured report (the list keyed by the victim's color, displayed as
the mover's trophies; the other list is untouched), replaces the occupant
with the moved piece, vacates the source, changes no other cell, and
preserves the occupancy/position-coherence invariant of the board. -/
theorem capture_bookkeeping (s : AppState) (piece : Piece) (tx ty tz : Nat) (move : Move)
    (victim : Piece)
    (hnp : ¬(piece.type = PieceType.P ∧ tz = promotionRank piece.color))
    (hcast : move.castle = none)
    (hvic : s.boardState tx ty tz = some victim)
    (_hcol : victim.color = oppColor piece.color)
    (hsrc : ¬(piece.x = tx ∧ piece.y = ty ∧ piece.z = tz))
    (hco : boardCoherent s.boardState) :
    capList (executeMove s piece tx ty tz move).capturedPieces (oppColor piece.color) =
      capList s.capturedPieces (oppColor piece.color) ++ [victim] ∧
    capList (executeMove s piece tx ty tz move).capturedPieces piece.color =
      capList s.capturedPieces piece.color ∧
    (executeMove s piece tx ty tz move).boardState tx ty tz =
      some { piece with x := tx, y := ty, z := tz, hasMoved := true } ∧
    (executeMove s piece tx ty tz move).boardState piece.x piece.y piece.z = none ∧
    (∀ a c d, ¬(a = tx ∧ c = ty ∧ d = tz) → ¬(a = piece.x ∧ c = piece.y ∧ d = piece.z) →
        (executeMove s piece tx ty tz move).boardState a c d = s.boardState a c d) ∧
    boardCoherent (executeMove s piece tx ty tz move).boardState := by
  obtain ⟨hb, hcap, -⟩ := executeMove_proj s piece tx ty tz move hnp
  have hsrc2 : ¬(tx = piece.x ∧ ty = piece.y ∧ tz = piece.z) := by
    intro hcontra
    exact hsrc ⟨hcontra.1.symm, hcontra.2.1.symm, hcontra.2.2.symm⟩
  have hscr := executeMoveCore_scratch_nocastle s.boardState s.capturedPieces piece
    tx ty tz move hcast
  refine ⟨?_, ?_, ?_, ?_, ?_, ?_⟩
  · rw [hcap, executeMoveCore_scratchCap, hvic]
    exact capList_push_same _ _ _
  · rw [hcap, executeMoveCore_scratchCap, hvic]
    exact capList_push_other _ _ _ _ (Ne.symm (oppColor_ne piece.color))
  · rw [hb, hscr]
    exact setCell_same _ _ _ _ _
  · rw [hb, hscr, setCell_other _ _ _ _ _ _ _ _ hsrc]
    exact setCell_same _ _ _ _ _
  · intro a c d hd hs2
    rw [hb, hscr, setCell_other _ _ _ _ _ _ _ _ hd, setCell_other _ _ _ _ _ _ _ _ hs2]
  · rw [hb, hscr]
    exact boardCoherent_setCell_some _ _ _ _ _
      (boardCoherent_setCell_none _ _ _ _ hco) ⟨rfl, rfl, rfl⟩

theorem capture_bookkeeping_witness :
    capList (executeMove sCap rookW 0 0 1 mvCap).capturedPieces (oppColor rookW.color) =
      capList sCap.capturedPieces (oppColor rookW.color) ++ [victimB] ∧
    capList (executeMove sCap rookW 0 0 1 mvCap).capturedPieces rookW.color =
      capList sCap.capturedPieces rookW.color ∧
    (executeMove sCap rookW 0 0 1 mvCap).boardState 0 0 1 =
      some { rookW with x := 0, y := 0, z := 1, hasMoved := true } ∧
    (executeMove sCap rookW 0 0 1 mvCap).boardState rookW.x rookW.y rookW.z = none ∧
    (∀ a c d, ¬(a = 0 ∧ c = 0 ∧ d = 1) → ¬(a = rookW.x ∧ c = rookW.y ∧ d = rookW.z) →
        (executeMove sCap rookW 0 0 1 mvCap).boardState a c d = sCap.boardState a c d) ∧
    boardCoherent (executeMove sCap rookW 0 0 1 mvCap).boardState :=
  capture_bookkeeping sCap rookW 0 0 1 mvCap victimB (by decide) rfl (by decide) rfl
    (by decide) bCap_coherent

/-- C7: `hasMoved` is monotonic across both executors — every cell of the
successor board is either exactly as it was or holds a piece whose flag is
`true` (covering the moved piece, the castling rook, and the promoted
piece) — and an executed non-castling, non-promoting move places the moved
piece at its destination with `hasMoved = true`. -/
theorem hasMoved_monotonic (s : AppState) (piece : Piece) (tx ty tz : Nat) (move : Move)
    (t : PieceType) :
    hasMovedMonotone s.boardState (executeMove s piece tx ty tz move).boardState ∧
    hasMovedMonotone s.boardState (handlePromotion s t).boardState ∧
    (¬(piece.type = PieceType.P ∧ tz = promotionRank piece.color) → move.castle = none →
      (executeMove s piece tx ty tz move).boardState tx ty tz =
        some { piece with x := tx, y := ty, z := tz, hasMoved := true }) := by
  refine ⟨?_, ?_, ?_⟩
  · unfold executeMove
    split
    · exact hasMovedMonotone_refl _
    · exact executeMoveCore_monotone _ _ _ _ _ _ _
  · rcases hpd : s.promotionData with _ | pd
    · unfold handlePromotion
      rw [hpd]
      exact hasMovedMonotone_refl _
    · obtain ⟨hb, -, -⟩ := handlePromotion_proj s t pd hpd
      rw [hb, handlePromotionCore_scratch]
      exact hasMovedMonotone_setCell_true _ _ _ _ _ _
        (hasMovedMonotone_setCell_none _ _ _ _ _ (hasMovedMonotone_refl _)) rfl
  · intro hnp hcast
    obtain ⟨hb, -, -⟩ := executeMove_proj s piece tx ty tz move hnp
    rw [hb, executeMoveCore_scratch_nocastle _ _ _ _ _ _ _ hcast]
    exact setCell_same _ _ _ _ _

theorem hasMoved_monotonic_witness :
    (executeMove sCap rookW 0 0 1 mvCap).boardState 0 0 1 =
      some { rookW with x := 0, y := 0, z := 1, hasMoved := true } :=
  (hasMoved_monotonic sCap rookW 0 0 1 mvCap PieceType.Q).2.2 (by decide) rfl
